import Mathlib

/-
  Verification of the GainersData polling scheduler (src/main.py).

  Shallow embedding conventions:
  * Local wall-clock instants (aware datetimes in America/New_York) are modelled
    as a proleptic day ordinal (Python date.toordinal, ordinal 1 is a Monday)
    plus a time-of-day broken into hour / minute / second / microsecond fields,
    exactly the fields the source reads and replaces.  Date arithmetic with
    timedelta(days=n) followed by .replace(hour, minute, second, microsecond)
    becomes ordinal shift plus a fresh time record.  Durations are expressed in
    integer microseconds (Python total_seconds() is this value divided by 1e6).
  * Python dicts built by GetTopGainers always carry the same five keys, so the
    membership test (x in g) on such a dict is membership of x in that fixed
    key list.
  * time.time() readings are supplied by the environment: a clock function for
    the per-item readings inside the GetTopGainers list comprehension, rational
    numbers for the tick-alignment arithmetic.
  * Fallible externals (the yfinance market probe, the redis get/set calls)
    are modelled by explicit result values; an uncaught Python exception in
    the loop body is recorded by the crashed flag of the tick result.
-/

namespace GainersData

/-- A row of the gainers data, as built by GetTopGainers in src/main.py:
a dict with keys symbol, timestamp (epoch seconds), day (full weekday name),
datetime_iso and datetime_readable. -/
structure GainerRecord where
  symbol : String
  timestamp : Nat
  day : String
  datetime_iso : String
  datetime_readable : String
deriving DecidableEq

/-- The key set of the dict representing a GainerRecord.  Every record dict
produced by GetTopGainers has exactly these five keys, so the Python test
(x in g) on such a dict is decided by membership in this list. -/
def GainerRecord.keys (_ : GainerRecord) : List String :=
  ["symbol", "timestamp", "day", "datetime_iso", "datetime_readable"]

/-- Outcome of the yfinance market-status probe: either the probe call
succeeded and market.status.get("status") returned the given optional string,
or the call raised an exception. -/
inductive ProbeResult where
  | ok (status : Option String)
  | err
deriving DecidableEq

/-- Python str.upper() on the status string: uppercase every character. -/
def pyUpper (s : String) : String := ⟨s.data.map Char.toUpper⟩

/-- IsMarketOpen (src/main.py lines 15-34): on an exception return False;
on a missing status return False; if status.upper() == "CLOSED" return False;
otherwise return True. -/
def isMarketOpen : ProbeResult → Bool
  | ProbeResult.err => false
  | ProbeResult.ok none => false
  | ProbeResult.ok (some status) =>
      if pyUpper status = "CLOSED" then false else true

/-- Time-of-day fields of a local datetime (America/New_York wall clock). -/
structure LocalTime where
  hour : Nat
  minute : Nat
  second : Nat
  microsecond : Nat
deriving DecidableEq

/-- Time-of-day in microseconds since local midnight. -/
def LocalTime.toMicros (t : LocalTime) : Nat :=
  ((t.hour * 60 + t.minute) * 60 + t.second) * 1000000 + t.microsecond

/-- The fields are in range, as they always are for a real datetime. -/
def LocalTime.Valid (t : LocalTime) : Prop :=
  t.hour < 24 ∧ t.minute < 60 ∧ t.second < 60 ∧ t.microsecond < 1000000

/-- A local datetime: proleptic Gregorian day ordinal (Python
date.toordinal; ordinal 1, year 1 January 1, is a Monday) plus time of day. -/
structure LocalDateTime where
  ordinal : Nat
  time : LocalTime
deriving DecidableEq

/-- Microseconds in one day. -/
def microsPerDay : Nat := 86400000000

/-- Microseconds since the epoch of the proleptic calendar; two aware
datetimes in the same fixed zone compare exactly by this value. -/
def LocalDateTime.totalMicros (d : LocalDateTime) : Nat :=
  d.ordinal * microsPerDay + d.time.toMicros

/-- Python datetime.weekday(): Monday is 0 and Sunday is 6.  Ordinal 1 is a
Monday, so the weekday of an ordinal is (ordinal - 1) mod 7, written with an
addition so it is total on Nat. -/
def LocalDateTime.weekday (d : LocalDateTime) : Nat := (d.ordinal + 6) % 7

/-- datetime.replace(hour, minute, second, microsecond): same date, new
time of day. -/
def LocalDateTime.replaceTime (d : LocalDateTime) (h m s us : Nat) : LocalDateTime :=
  ⟨d.ordinal, ⟨h, m, s, us⟩⟩

/-- InTradingHours (src/main.py lines 36-52): weekends are excluded, then
the current datetime is compared against today 09:30:00.000000 and today
16:00:00.000000, both bounds inclusive. -/
def inTradingHours (now : LocalDateTime) : Bool :=
  if now.weekday ≥ 5 then false
  else
    let market_open := now.replaceTime 9 30 0 0
    let market_close := now.replaceTime 16 0 0 0
    decide (market_open.totalMicros ≤ now.totalMicros ∧
            now.totalMicros ≤ market_close.totalMicros)

/-- strftime("%A"): the full weekday name for a Python weekday index. -/
def weekdayName : Nat → String
  | 0 => "Monday"
  | 1 => "Tuesday"
  | 2 => "Wednesday"
  | 3 => "Thursday"
  | 4 => "Friday"
  | 5 => "Saturday"
  | 6 => "Sunday"
  | _ => ""

/-- The list comprehension of GetTopGainers (src/main.py lines 90-96),
building one record per quote.  The expression int(time.time()) sits inside
the comprehension body and is evaluated once per item, so the i-th record is
stamped with the i-th clock reading; dt was bound once before the
comprehension, so the day, iso and readable strings are shared. -/
def stampBatch (clock : Nat → Nat) (day iso readable : String) :
    Nat → List String → List GainerRecord
  | _, [] => []
  | i, s :: rest =>
      ⟨s, clock i, day, iso, readable⟩ :: stampBatch clock day iso readable (i + 1) rest

/-- GetTopGainers on a successful screen call: collection is the list of
quote symbols, clock supplies the successive int(time.time()) readings, and
day, iso, readable are the three strings formatted from the single dt
reading taken before the comprehension. -/
def getTopGainers (collection : List String) (clock : Nat → Nat)
    (day iso readable : String) : List GainerRecord :=
  stampBatch clock day iso readable 0 collection

/-- The accumulator update of the Open branch (src/main.py lines 143-149):
todays_symbols is computed once from the accumulator before the loop, then
each incoming gainer whose symbol is not in that fixed snapshot is appended. -/
def ingest (todays_gainers gainers : List GainerRecord) : List GainerRecord :=
  let todays_symbols := todays_gainers.map (fun g => g.symbol)
  gainers.foldl
    (fun acc gainer => if gainer.symbol ∈ todays_symbols then acc else acc ++ [gainer])
    todays_gainers

/-- The ledger merge of the consolidation branch (src/main.py lines 168-178):
if any existing entry g satisfies (day_of_the_week in g) — a key-membership
test on the record dict — the entries satisfying it are dropped, then
todays_gainers is appended. -/
def consolidate (existing_gainers todays_gainers : List GainerRecord)
    (day_of_the_week : String) : List GainerRecord :=
  let remaining :=
    if existing_gainers.any (fun g => decide (day_of_the_week ∈ g.keys))
    then existing_gainers.filter (fun g => decide (day_of_the_week ∉ g.keys))
    else existing_gainers
  remaining ++ todays_gainers

/-- The long-sleep computation of the idle branch (src/main.py lines
191-236): some duration (in integer microseconds) when wait_until_open ends
up True, none when the loop falls through to the ordinary short tick.
The three cases mirror the source: weekend (sleep to Monday 09:25), the
elif testing hour >= 16 and minute >= 0 and second >= 0 (sleep to the next
calendar day 09:25), and the elif testing hour <= 9 and minute < 25 (sleep
to today 09:25, only when the resulting duration is strictly positive). -/
def sleepPlanner (current_time : LocalDateTime) : Option Int :=
  if current_time.weekday ≥ 5 then
    let days_ahead := 7 - current_time.weekday
    let next_opening : LocalDateTime := ⟨current_time.ordinal + days_ahead, ⟨9, 25, 0, 0⟩⟩
    some ((next_opening.totalMicros : Int) - (current_time.totalMicros : Int))
  else if 16 ≤ current_time.time.hour ∧ 0 ≤ current_time.time.minute ∧
          0 ≤ current_time.time.second then
    let next_opening : LocalDateTime := ⟨current_time.ordinal + 1, ⟨9, 25, 0, 0⟩⟩
    some ((next_opening.totalMicros : Int) - (current_time.totalMicros : Int))
  else if current_time.time.hour ≤ 9 ∧ current_time.time.minute < 25 then
    let next_opening : LocalDateTime := ⟨current_time.ordinal, ⟨9, 25, 0, 0⟩⟩
    let time_to_sleep : Int := (next_opening.totalMicros : Int) - (current_time.totalMicros : Int)
    if time_to_sleep > 0 then some time_to_sleep else none
  else none

/-- The tick-alignment arithmetic (src/main.py lines 109-115 and 272-278):
full_time is the float time.time() reading modelled as a rational, seconds
is int(full_time), fractional the sub-second part, remainder the modulus of
seconds by the integer tick rate, and the returned duration is
tick - remainder - fractional. -/
def pyInt (q : ℚ) : Int := if 0 ≤ q then ⌊q⌋ else ⌈q⌉

/-- NextTickDelay: the exact sleep duration computed before time.sleep. -/
def nextTickDelay (tick : Nat) (full_time : ℚ) : ℚ :=
  let seconds : Int := pyInt full_time
  let fractional : ℚ := full_time - (seconds : ℚ)
  let remainder : Int := seconds % (tick : Int)
  (tick : ℚ) - (remainder : ℚ) - fractional

/-- A value written to redis: either a json list of gainer records or the
two-element status tuple (phase plus a since timestamp). -/
inductive StoreValue where
  | gainers (records : List GainerRecord)
  | statusRec (phase : String) (since : Nat)
deriving DecidableEq

/-- The environment one iteration of the while-loop observes: the
InTradingHours result, the probe outcome, the batch returned by
GetTopGainers (already empty on a query exception, which GetTopGainers
catches), the local datetime and epoch-second readings, the result of
redis get("gainers_record") — ok none models a missing key, error an
exception — and which redis set calls raise. -/
structure TickEnv where
  trading : Bool
  probe : ProbeResult
  gainers : List GainerRecord
  now : LocalDateTime
  epochNow : Nat
  ledger : Except Unit (Option (List GainerRecord))
  setFails : String → Bool

/-- The observable outcome of one iteration: the accumulator value when the
iteration ends (or when the uncaught exception escapes), the successful
redis writes in order, whether an exception escaped the loop body, and the
long sleep taken, if any, in microseconds. -/
structure TickResult where
  acc : List GainerRecord
  writes : List (String × StoreValue)
  crashed : Bool
  slept : Option Int
deriving DecidableEq

/-- The status set at line 258 of src/main.py, reached at the end of every
iteration that has not raised: writes the alive status or crashes if that
set call raises. -/
def aliveStatus (env : TickEnv) (acc : List GainerRecord)
    (writes : List (String × StoreValue)) (slept : Option Int) : TickResult :=
  if env.setFails ("status") then ⟨acc, writes, true, slept⟩
  else ⟨acc, writes ++ [("status", StoreValue.statusRec ("alive") env.epochNow)], false, slept⟩

/-- One iteration of the while-loop body (src/main.py lines 120-265).
Branches in source order: trading hours and market open (ingest, write
todays_gainers), trading hours but probe not open (fall through), not
trading with a non-empty accumulator (consolidate into gainers_record and
clear), otherwise the sleep planner (write the sleeping status and take the
long sleep when one is due).  Every redis call that raises ends the
iteration with crashed set; the accumulator keeps the value it had at that
point, matching the uncaught exception in the source. -/
def tickBody (todays_gainers : List GainerRecord) (env : TickEnv) : TickResult :=
  if env.trading then
    if isMarketOpen env.probe then
      let acc := ingest todays_gainers env.gainers
      if env.setFails ("todays_gainers") then ⟨acc, [], true, none⟩
      else aliveStatus env acc [("todays_gainers", StoreValue.gainers acc)] none
    else aliveStatus env todays_gainers [] none
  else if env.trading = false ∧ todays_gainers.length > 0 then
    match env.ledger with
    | Except.error _ => ⟨todays_gainers, [], true, none⟩
    | Except.ok none =>
        if env.setFails ("gainers_record") then ⟨todays_gainers, [], true, none⟩
        else aliveStatus env [] [("gainers_record", StoreValue.gainers todays_gainers)] none
    | Except.ok (some existing_gainers) =>
        let merged := consolidate existing_gainers todays_gainers (weekdayName env.now.weekday)
        if env.setFails ("gainers_record") then ⟨todays_gainers, [], true, none⟩
        else aliveStatus env [] [("gainers_record", StoreValue.gainers merged)] none
  else
    match sleepPlanner env.now with
    | some d =>
        if env.setFails ("status") then ⟨todays_gainers, [], true, none⟩
        else aliveStatus env todays_gainers
          [("status", StoreValue.statusRec ("sleeping") env.epochNow)] (some d)
    | none => aliveStatus env todays_gainers [] none

/-- Replay a list of key-value writes over a store snapshot. -/
def applyWrites (store : String → Option StoreValue)
    (writes : List (String × StoreValue)) : String → Option StoreValue :=
  writes.foldl (fun st kv => fun key => if key = kv.1 then some kv.2 else st key) store

/-- The accumulator is duplicate-free by ticker symbol. -/
def uniqueBySymbol (l : List GainerRecord) : Prop :=
  (l.map (fun g => g.symbol)).Nodup

/-- A stale ledger entry from the previous Monday. -/
def recCCC : GainerRecord :=
  ⟨"CCC", 1000, "Monday", "2025-09-29T10:00:00-04:00", "09-29-25 10:00:00.000000 AM EDT"⟩

/-- A fresh session record, also tagged Monday. -/
def recAAA : GainerRecord :=
  ⟨"AAA", 2000, "Monday", "2025-10-06T10:00:00-04:00", "10-06-25 10:00:00.000000 AM EDT"⟩

/-- A second fresh session record with a distinct symbol. -/
def recBBB : GainerRecord :=
  ⟨"BBB", 2001, "Monday", "2025-10-06T10:00:10-04:00", "10-06-25 10:00:10.000000 AM EDT"⟩

/-- The same symbol as recAAA appearing again inside one batch. -/
def recAAAdup : GainerRecord :=
  ⟨"AAA", 2002, "Monday", "2025-10-06T10:00:20-04:00", "10-06-25 10:00:20.000000 AM EDT"⟩

/-- A Friday at 17:00:00 local: ordinal 5 has weekday (5 + 6) mod 7 = 4. -/
def fridayFivePM : LocalDateTime := ⟨5, ⟨17, 0, 0, 0⟩⟩

/-- The next calendar day at 09:25:00: a Saturday. -/
def saturdayOpen : LocalDateTime := ⟨6, ⟨9, 25, 0, 0⟩⟩

/-- A Thursday at 08:30:00 local: ordinal 4 has weekday 3. -/
def thursdayHalfEight : LocalDateTime := ⟨4, ⟨8, 30, 0, 0⟩⟩

/-- A Saturday at noon. -/
def saturdayNoon : LocalDateTime := ⟨6, ⟨12, 0, 0, 0⟩⟩

/-- A Monday at 10:00:00 local: ordinal 8 has weekday 0. -/
def mondayTen : LocalDateTime := ⟨8, ⟨10, 0, 0, 0⟩⟩

/-- C1: the spec says consolidation removes all prior ledger entries whose
weekday_tag equals the session's tag before appending the finished records.
The source tests (day_of_the_week in g) on each record dict, which checks
the dict KEYS, never the value of the day field; no weekday name is among
the five record keys, so the purge never fires.  At the failing input —
prior ledger [recCCC] tagged Monday, finished session [recAAA] also tagged
Monday — the stale Monday entry recCCC survives and the result is
[recCCC, recAAA] instead of [recAAA]. -/
theorem c1_stale_same_day_entry_survives_consolidation :
    consolidate [recCCC] [recAAA] ("Monday") = [recCCC, recAAA] ∧
    recCCC.day = "Monday" ∧ recAAA.day = "Monday" := by decide

/-- C2 counterexample: the claim says any status other than "open" is
treated as not open, but IsMarketOpen returns True for the successful probe
status "HALTED", a string different from "open". -/
theorem c2_halted_status_treated_as_open :
    isMarketOpen (ProbeResult.ok (some ("HALTED"))) = true ∧
    ("HALTED" : String) ≠ "open" := by decide

/-- C2 amended: the market is treated as open exactly when the probe
succeeds and reports a status whose uppercasing differs from "CLOSED"; a
probe error or a missing status yields not open, and whenever the probe is
not open no todays_gainers write is issued and the accumulator is
untouched on a trading-hours tick. -/
theorem c2_market_open_iff_status_not_closed :
    (isMarketOpen ProbeResult.err = false) ∧
    (isMarketOpen (ProbeResult.ok none) = false) ∧
    (∀ s : String, isMarketOpen (ProbeResult.ok (some s)) = true ↔ pyUpper s ≠ "CLOSED") ∧
    (∀ (acc : List GainerRecord) (env : TickEnv), env.trading = true →
      isMarketOpen env.probe = false →
      (tickBody acc env).acc = acc ∧
      ("todays_gainers" : String) ∉ (tickBody acc env).writes.map Prod.fst) := by
  refine ⟨rfl, rfl, ?_, ?_⟩
  · intro s
    by_cases h : pyUpper s = "CLOSED" <;> simp [isMarketOpen, h]
  · intro acc env htr hopen
    simp only [tickBody, htr, hopen, if_true, if_false, Bool.false_eq_true, aliveStatus]
    by_cases hs : env.setFails ("status") <;> simp [hs]

/-- A trading-hours tick on which the market probe raised. -/
def envProbeDown : TickEnv :=
  ⟨true, ProbeResult.err, [], mondayTen, 0, Except.ok none, fun _ => false⟩

/-- C2 witness: on a concrete trading-hours tick whose probe raised, the
accumulator survives and no todays_gainers write happens. -/
theorem c2_probe_down_witness :
    (tickBody [recAAA] envProbeDown).acc = [recAAA] ∧
    ("todays_gainers" : String) ∉ (tickBody [recAAA] envProbeDown).writes.map Prod.fst :=
  c2_market_open_iff_status_not_closed.2.2.2 [recAAA] envProbeDown rfl rfl

/-- C3 counterexample: invoked on a Friday at 17:00:00 with an empty
accumulator, the sleep planner returns 59100 seconds, whose wake instant is
the Saturday at 09:25:00 (weekday 5), not the following Monday (weekday 0). -/
theorem c3_friday_sleep_lands_on_saturday :
    fridayFivePM.weekday = 4 ∧
    sleepPlanner fridayFivePM = some 59100000000 ∧
    (fridayFivePM.totalMicros : Int) + 59100000000 = (saturdayOpen.totalMicros : Int) ∧
    saturdayOpen.weekday = 5 ∧ saturdayOpen.weekday ≠ 0 := by decide

/-- C3 amended: on a weekday at or after 16:00 the sleep planner targets the
next calendar day at 09:25:00 — one day ahead, whose weekday is the current
weekday plus one — so a Friday invocation lands on Saturday; Monday 09:25 is
only reached after the loop wakes on Saturday and re-plans via the weekend
branch. -/
theorem c3_afterclose_sleeps_to_next_calendar_day :
    ∀ now : LocalDateTime, now.weekday < 5 → 16 ≤ now.time.hour →
      sleepPlanner now =
        some (((⟨now.ordinal + 1, ⟨9, 25, 0, 0⟩⟩ : LocalDateTime).totalMicros : Int) -
          (now.totalMicros : Int)) ∧
      (⟨now.ordinal + 1, ⟨9, 25, 0, 0⟩⟩ : LocalDateTime).weekday = (now.weekday + 1) % 7 := by
  intro now h5 h16
  constructor
  · rw [sleepPlanner, if_neg (by omega), if_pos ⟨h16, Nat.zero_le _, Nat.zero_le _⟩]
  · simp only [LocalDateTime.weekday]
    omega

/-- C3 witness: the amended theorem applied at the concrete Friday 17:00. -/
theorem c3_friday_witness :
    sleepPlanner fridayFivePM =
      some (((⟨fridayFivePM.ordinal + 1, ⟨9, 25, 0, 0⟩⟩ : LocalDateTime).totalMicros : Int) -
        (fridayFivePM.totalMicros : Int)) ∧
    (⟨fridayFivePM.ordinal + 1, ⟨9, 25, 0, 0⟩⟩ : LocalDateTime).weekday =
      (fridayFivePM.weekday + 1) % 7 :=
  c3_afterclose_sleeps_to_next_calendar_day fridayFivePM (by decide) (by decide)

/-- A non-trading tick on which redis get("gainers_record") raises. -/
def envLedgerDown : TickEnv :=
  ⟨false, ProbeResult.err, [], fridayFivePM, 0, Except.error (), fun _ => false⟩

/-- A tick whose store never fails, with a failing probe and empty batch. -/
def envAllOk : TickEnv :=
  ⟨true, ProbeResult.err, [], mondayTen, 0, Except.ok none, fun _ => false⟩

/-- C4 counterexample: on a consolidation tick whose ledger read raises,
the exception escapes the loop body — the iteration crashes instead of
continuing — although the accumulator is indeed left unchanged. -/
theorem c4_store_failure_kills_loop :
    (tickBody [recAAA] envLedgerDown).crashed = true ∧
    (tickBody [recAAA] envLedgerDown).acc = [recAAA] := by decide

/-- C4 amended: probe and query failures are non-fatal (they are caught
inside IsMarketOpen and GetTopGainers, and a tick whose store calls all
succeed never crashes, whatever the probe or batch), but a store read
failure on a consolidation tick propagates as an uncaught exception and
terminates the polling loop; the accumulator still holds the session data
at that point, yet no next tick ever runs to retry. -/
theorem c4_store_failures_fatal_probe_failures_not :
    (∀ (acc : List GainerRecord) (env : TickEnv), env.trading = false →
      0 < acc.length → env.ledger = Except.error () →
      (tickBody acc env).crashed = true ∧ (tickBody acc env).acc = acc) ∧
    (∀ (acc : List GainerRecord) (env : TickEnv),
      (∀ k, env.setFails k = false) → env.ledger ≠ Except.error () →
      (tickBody acc env).crashed = false) := by
  constructor
  · intro acc env htr hlen hled
    simp [tickBody, htr, hled, hlen]
  · intro acc env hsf hled
    have hst : env.setFails ("status") = false := hsf _
    have htg : env.setFails ("todays_gainers") = false := hsf _
    have hgr : env.setFails ("gainers_record") = false := hsf _
    by_cases h1 : env.trading
    · by_cases h2 : isMarketOpen env.probe <;>
        simp [tickBody, h1, h2, htg, hst, aliveStatus]
    · have h1f : env.trading = false := by simpa using h1
      rcases henv : env.ledger with e | ol
      · exact absurd (by cases e; exact henv) hled
      · by_cases h3 : 0 < acc.length
        · rcases ol with _ | l <;>
            simp [tickBody, h1f, h3, henv, hgr, hst, aliveStatus]
        · rcases hsp : sleepPlanner env.now with _ | d <;>
            simp [tickBody, h1f, h3, henv, hsp, hst, aliveStatus]

/-- C4 witness: the amended theorem applied at two concrete ticks, one with
a failing ledger read and one with a store that never fails. -/
theorem c4_witness :
    ((tickBody [recBBB] envLedgerDown).crashed = true ∧
      (tickBody [recBBB] envLedgerDown).acc = [recBBB]) ∧
    (tickBody [] envAllOk).crashed = false :=
  ⟨c4_store_failures_fatal_probe_failures_not.1 [recBBB] envLedgerDown rfl
      (by decide) rfl,
    c4_store_failures_fatal_probe_failures_not.2 [] envAllOk (fun _ => rfl)
      (fun h => Except.noConfusion h)⟩

/-- C5 counterexample: the symbol AAA occurring twice within one batch is
appended twice, because the membership test uses the todays_symbols
snapshot taken before the batch loop; the accumulator then holds two
records for AAA, not exactly one. -/
theorem c5_duplicate_within_batch_ingested_twice :
    ingest [] [recAAA, recAAAdup] = [recAAA, recAAAdup] ∧
    recAAA.symbol = "AAA" ∧ recAAAdup.symbol = "AAA" := by decide

/-- Unrolling the batch loop of the Open branch: the symbols snapshot is
fixed, so the fold is an append of the filtered batch. -/
theorem foldl_snapshot_append (todays_symbols : List String)
    (batch start : List GainerRecord) :
    batch.foldl
      (fun acc gainer =>
        if gainer.symbol ∈ todays_symbols then acc else acc ++ [gainer])
      start =
    start ++ batch.filter (fun g => decide (g.symbol ∉ todays_symbols)) := by
  induction batch generalizing start with
  | nil => simp
  | cons b bs ih =>
    by_cases h : b.symbol ∈ todays_symbols <;>
      simp [List.foldl_cons, h, ih, List.filter_cons]

/-- Ingest appends exactly the incoming records whose symbol is absent from
the pre-batch accumulator. -/
theorem ingest_eq_append_filter (acc batch : List GainerRecord) :
    ingest acc batch =
      acc ++ batch.filter
        (fun g => decide (g.symbol ∉ acc.map (fun r => r.symbol))) := by
  simp only [ingest]
  exact foldl_snapshot_append (acc.map (fun g => g.symbol)) batch acc

/-- C5 amended: symbols already present in the accumulator before a batch
are never appended again — dedup across ticks holds, first occurrence wins
and insertion order is preserved — but the presence test uses a snapshot of
the symbols taken before the batch, so uniqueness is only guaranteed when
each single batch is itself duplicate-free by symbol; a symbol occurring
twice within one batch is appended twice. -/
theorem c5_ingest_dedup_across_ticks :
    ∀ acc batch : List GainerRecord,
      ingest acc batch =
        acc ++ batch.filter
          (fun g => decide (g.symbol ∉ acc.map (fun r => r.symbol))) ∧
      (uniqueBySymbol acc → (batch.map (fun g => g.symbol)).Nodup →
        uniqueBySymbol (ingest acc batch)) := by
  intro acc batch
  refine ⟨ingest_eq_append_filter acc batch, ?_⟩
  intro ha hb
  rw [uniqueBySymbol, ingest_eq_append_filter, List.map_append, List.nodup_append]
  refine ⟨ha, ?_, ?_⟩
  · exact hb.sublist ((List.filter_sublist batch).map (fun g => g.symbol))
  · intro x hx1 hx2
    rcases List.mem_map.mp hx2 with ⟨g, hg, rfl⟩
    rcases List.mem_filter.mp hg with ⟨-, hp⟩
    exact (of_decide_eq_true hp) hx1

/-- C5 witness: the amended theorem applied at a concrete accumulator and a
duplicate-free batch whose first symbol is fresh and whose second symbol is
already accumulated. -/
theorem c5_unique_witness :
    uniqueBySymbol (ingest [recAAA] [recBBB, recAAAdup]) :=
  (c5_ingest_dedup_across_ticks [recAAA] [recBBB, recAAAdup]).2
    (by unfold uniqueBySymbol; decide) (by decide)

/-- C6: the spec says every weekday time before 09:25:00 targets today at
09:25:00.  The guard in the source is hour <= 9 and minute < 25, which is
false on a Thursday at 08:30:00 although 08:30 is before 09:25; the sleep
planner yields no long sleep there and the loop falls back to the short
tick, contradicting the comment above the guard (sleep until today 9:25 AM
when before market open). -/
theorem c6_half_past_eight_misses_long_sleep :
    thursdayHalfEight.weekday = 3 ∧
    inTradingHours thursdayHalfEight = false ∧
    thursdayHalfEight.time.toMicros < (LocalTime.mk 9 25 0 0).toMicros ∧
    sleepPlanner thursdayHalfEight = none := by decide

/-- C7: for every positive tick rate and every non-negative wall-clock
instant, the computed delay added to the instant lands exactly on an
integer multiple of the tick rate, and the delay lies between 0 and one
tick.  (The source always reads a non-negative time.time(), where the
int() truncation equals the floor.) -/
theorem c7_next_tick_delay_aligns (tick : Nat) (q : ℚ) (ht : 0 < tick) (hq : 0 ≤ q) :
    (∃ k : Int, q + nextTickDelay tick q = (tick : ℚ) * (k : ℚ)) ∧
    0 ≤ nextTickDelay tick q ∧ nextTickDelay tick q ≤ (tick : ℚ) := by
  have htz : (tick : Int) ≠ 0 := by exact_mod_cast ht.ne'
  have htpos : (0 : Int) < (tick : Int) := by exact_mod_cast ht
  have hseconds : pyInt q = ⌊q⌋ := if_pos hq
  have hr0 : 0 ≤ ⌊q⌋ % (tick : Int) := Int.emod_nonneg ⌊q⌋ htz
  have hr1 : ⌊q⌋ % (tick : Int) + 1 ≤ (tick : Int) :=
    Int.lt_iff_add_one_le.mp (Int.emod_lt_of_pos ⌊q⌋ htpos)
  have hr0q : (0 : ℚ) ≤ ((⌊q⌋ % (tick : Int) : Int) : ℚ) := by exact_mod_cast hr0
  have hr1q : ((⌊q⌋ % (tick : Int) : Int) : ℚ) + 1 ≤ (tick : ℚ) := by exact_mod_cast hr1
  have hf0 : (0 : ℚ) ≤ q - (⌊q⌋ : ℚ) := sub_nonneg.mpr (Int.floor_le q)
  have hf1 : q - (⌊q⌋ : ℚ) < 1 := by
    have := Int.lt_floor_add_one q
    linarith
  have key : (tick : Int) * (⌊q⌋ / (tick : Int)) + ⌊q⌋ % (tick : Int) = ⌊q⌋ :=
    Int.ediv_add_emod ⌊q⌋ (tick : Int)
  have keyq : (tick : ℚ) * ((⌊q⌋ / (tick : Int) : Int) : ℚ) +
      ((⌊q⌋ % (tick : Int) : Int) : ℚ) = (⌊q⌋ : ℚ) := by exact_mod_cast key
  refine ⟨⟨⌊q⌋ / (tick : Int) + 1, ?_⟩, ?_, ?_⟩
  · simp only [nextTickDelay, hseconds]
    push_cast
    linarith
  · simp only [nextTickDelay, hseconds]
    linarith
  · simp only [nextTickDelay, hseconds]
    linarith

/-- C7 witness: the alignment theorem applied at tick rate 10 and instant 0. -/
theorem c7_alignment_witness :
    (∃ k : Int, (0 : ℚ) + nextTickDelay 10 0 = (10 : ℚ) * (k : ℚ)) ∧
    0 ≤ nextTickDelay 10 0 ∧ nextTickDelay 10 0 ≤ (10 : ℚ) :=
  c7_next_tick_delay_aligns 10 0 (by decide) (le_refl 0)

/-- C8: the trading-hours check is a pure function of the local datetime;
Saturday and Sunday are excluded whatever the time of day, and on a
Monday-through-Friday instant it holds exactly when the time of day lies
between 09:30:00.000000 and 16:00:00.000000, both bounds included. -/
theorem c8_trading_hours_window (now : LocalDateTime) :
    (5 ≤ now.weekday → inTradingHours now = false) ∧
    (now.weekday < 5 →
      (inTradingHours now = true ↔
        (LocalTime.mk 9 30 0 0).toMicros ≤ now.time.toMicros ∧
        now.time.toMicros ≤ (LocalTime.mk 16 0 0 0).toMicros)) := by
  constructor
  · intro h
    simp [inTradingHours, h]
  · intro h
    simp only [inTradingHours]
    rw [if_neg (by omega)]
    rw [decide_eq_true_eq]
    simp only [LocalDateTime.replaceTime, LocalDateTime.totalMicros]
    exact and_congr (add_le_add_iff_left _) (add_le_add_iff_left _)

/-- C8 witness: the characterization applied on a Saturday noon (weekday 5)
and on a Monday at 10:00 (inside the window). -/
theorem c8_window_witness :
    inTradingHours saturdayNoon = false ∧ inTradingHours mondayTen = true :=
  ⟨(c8_trading_hours_window saturdayNoon).1 (by decide),
   ((c8_trading_hours_window mondayTen).2 (by decide)).mpr (by decide)⟩

/-- C9 counterexample: int(time.time()) sits inside the list comprehension
and is re-evaluated per record, so a batch whose construction crosses a
second boundary carries two different timestamps — the records of one
successful query do not all share one timestamp value. -/
theorem c9_timestamps_differ_within_batch :
    getTopGainers ["ABC", "XYZ"] (fun i => 100 + i) ("Monday") ("iso") ("hum") =
      [⟨"ABC", 100, "Monday", "iso", "hum"⟩, ⟨"XYZ", 101, "Monday", "iso", "hum"⟩] ∧
    (100 : Nat) ≠ 101 := by decide

/-- Every record built by the comprehension carries the day, iso and
readable strings of the single dt reading. -/
theorem stampBatch_fields (clock : Nat → Nat) (day iso readable : String) :
    ∀ (coll : List String) (i : Nat) (r : GainerRecord),
      r ∈ stampBatch clock day iso readable i coll →
      r.day = day ∧ r.datetime_iso = iso ∧ r.datetime_readable = readable := by
  intro coll
  induction coll with
  | nil =>
    intro i r h
    simp [stampBatch] at h
  | cons s rest ih =>
    intro i r h
    rw [stampBatch] at h
    rcases List.mem_cons.mp h with h | h
    · subst h
      exact ⟨rfl, rfl, rfl⟩
    · exact ih (i + 1) r h

/-- C9 amended: all records of a single successful gainer query share
identical weekday_tag, iso_timestamp and human_timestamp, because those
three strings come from the one dt reading taken before the comprehension;
the epoch-second timestamp, however, is a fresh time.time() reading per
record and may differ within the batch.  Records from different ticks of
the same session may carry different weekday_tags if the session spans
midnight, since each query takes its own dt reading. -/
theorem c9_batch_shares_day_and_strings :
    ∀ (collection : List String) (clock : Nat → Nat) (day iso readable : String)
      (r : GainerRecord),
      r ∈ getTopGainers collection clock day iso readable →
      r.day = day ∧ r.datetime_iso = iso ∧ r.datetime_readable = readable := by
  intro collection clock day iso readable r h
  exact stampBatch_fields clock day iso readable collection 0 r h

/-- C9 witness: the amended theorem applied at a concrete one-element batch. -/
theorem c9_shared_strings_witness :
    (⟨"ABC", 100, "Monday", "iso", "hum"⟩ : GainerRecord).day = "Monday" ∧
    (⟨"ABC", 100, "Monday", "iso", "hum"⟩ : GainerRecord).datetime_iso = "iso" ∧
    (⟨"ABC", 100, "Monday", "iso", "hum"⟩ : GainerRecord).datetime_readable = "hum" :=
  c9_batch_shares_day_and_strings ["ABC"] (fun _ => 100) ("Monday") ("iso") ("hum")
    ⟨"ABC", 100, "Monday", "iso", "hum"⟩ (by decide)

/-- Replaying writes that never touch a key leaves that key's stored value
unchanged. -/
theorem applyWrites_not_mem (key : String) :
    ∀ (writes : List (String × StoreValue)) (store : String → Option StoreValue),
      key ∉ writes.map Prod.fst → applyWrites store writes key = store key := by
  intro writes
  induction writes with
  | nil =>
    intro store _
    rfl
  | cons kv rest ih =>
    intro store h
    rw [List.map_cons, List.mem_cons] at h
    push_neg at h
    have step : applyWrites store (kv :: rest) key =
        applyWrites (fun k => if k = kv.1 then some kv.2 else store k) rest key := rfl
    rw [step, ih _ h.2]
    simp [h.1]

/-- A tick outside the open phase never writes the todays_gainers key. -/
theorem tickBody_no_todays_write (acc : List GainerRecord) (env : TickEnv)
    (h : ¬(env.trading = true ∧ isMarketOpen env.probe = true)) :
    ("todays_gainers" : String) ∉ (tickBody acc env).writes.map Prod.fst := by
  unfold tickBody aliveStatus
  split
  case isTrue h1 =>
    split
    case isTrue h2 => exact absurd ⟨h1, h2⟩ h
    case isFalse h2 => split <;> simp
  case isFalse h1 =>
    split
    · split
      · simp
      · split
        · simp
        · split <;> simp
      · split
        · simp
        · split <;> simp
    · split
      · split <;> simp
      · split <;> simp

/-- C10: the todays_gainers key is written exactly by the ticks on which
both the trading-hours window check and the market-open probe succeed (and
the write call does not itself fail); on every other tick — consolidation
at session end included — replaying the tick's writes leaves the stored
todays_gainers value untouched, and on an open tick with a healthy store
the key ends up holding the full ingested accumulator snapshot. -/
theorem c10_todays_gainers_frame :
    ∀ (acc : List GainerRecord) (env : TickEnv) (store : String → Option StoreValue),
      (("todays_gainers" : String) ∈ (tickBody acc env).writes.map Prod.fst →
        env.trading = true ∧ isMarketOpen env.probe = true) ∧
      (¬(env.trading = true ∧ isMarketOpen env.probe = true) →
        applyWrites store (tickBody acc env).writes ("todays_gainers") =
          store ("todays_gainers")) ∧
      (env.trading = true → isMarketOpen env.probe = true →
        (∀ k, env.setFails k = false) →
        applyWrites store (tickBody acc env).writes ("todays_gainers") =
          some (StoreValue.gainers (ingest acc env.gainers))) := by
  intro acc env store
  refine ⟨?_, ?_, ?_⟩
  · intro hmem
    by_contra h
    exact tickBody_no_todays_write acc env h hmem
  · intro h
    exact applyWrites_not_mem _ _ store (tickBody_no_todays_write acc env h)
  · intro h1 h2 hsf
    simp only [tickBody, h1, h2, if_true, hsf ("todays_gainers"), aliveStatus,
      hsf ("status"), Bool.false_eq_true, if_false]
    simp [applyWrites]

/-- An open-phase tick with a healthy store and a two-record batch. -/
def envOpenTick : TickEnv :=
  ⟨true, ProbeResult.ok (some ("open")), [recAAA, recBBB], mondayTen, 0,
    Except.ok none, fun _ => false⟩

/-- C10 witness: the frame theorem applied at a concrete open tick and at a
concrete probe-down tick over the empty store. -/
theorem c10_frame_witness :
    (envOpenTick.trading = true ∧ isMarketOpen envOpenTick.probe = true) ∧
    applyWrites (fun _ => none) (tickBody [] envProbeDown).writes ("todays_gainers") =
      none ∧
    applyWrites (fun _ => none) (tickBody [] envOpenTick).writes ("todays_gainers") =
      some (StoreValue.gainers (ingest [] envOpenTick.gainers)) :=
  ⟨(c10_todays_gainers_frame [] envOpenTick (fun _ => none)).1 (by decide),
   (c10_todays_gainers_frame [] envProbeDown (fun _ => none)).2.1 (by decide),
   (c10_todays_gainers_frame [] envOpenTick (fun _ => none)).2.2 rfl (by decide)
     (fun _ => rfl)⟩

end GainersData
